import Mathlib

/-!
Shallow embedding of the block-puzzle engine of `src/components/CardComponent.tsx`
and the card store of `src/services/storageService.ts`.

Conventions of the embedding:
* The 8x8 grid (`GridCell[][]`, cells `string | null`) is a total function
  `Fin 8 → Fin 8 → Option String`; `none` is the empty cell.
* Shape layouts (`number[][]`) are `List (List Nat)`, exactly as in the source.
* JavaScript number arithmetic in the scoring formula is embedded with exact
  rationals (`ℚ`) and `Int.floor` for `Math.floor`, following the design note
  of the specification that the bonus is a single compound floor.
* Anchors may be negative (the source checks `nr < 0`), so anchor coordinates
  are `Int`.
-/

namespace BlockGame

abbrev GridCell := Option String

/-- The playing grid: `GRID_SIZE = 8`. -/
abbrev Grid := Fin 8 → Fin 8 → GridCell

/-- A shape layout: a 2D 0/1 bitmap, as `number[][]` in the source. -/
abbrev Layout := List (List Nat)

/-- A dock piece (`Shape` in `types.ts`): identifier, layout bitmap, color tag. -/
structure Shape where
  id : String
  layout : Layout
  color : String
deriving DecidableEq, Repr

/-- The five power-up kinds (`PowerUpType` in `types.ts`). -/
inductive PowerUpType where
  | BOMB | LINE | COLOR | SINGLE | REFRESH
deriving DecidableEq, Repr

instance : Fintype PowerUpType :=
  ⟨⟨{.BOMB, .LINE, .COLOR, .SINGLE, .REFRESH}, by decide⟩, fun x => by cases x <;> decide⟩

/-- The power-up inventory (`Record<PowerUpType, number>`); JavaScript numbers
can in principle go negative, so counts are integers. -/
structure PowerUps where
  bomb : Int
  line : Int
  color : Int
  single : Int
  refresh : Int
deriving DecidableEq, Repr

def PowerUps.get (p : PowerUps) : PowerUpType → Int
  | .BOMB => p.bomb
  | .LINE => p.line
  | .COLOR => p.color
  | .SINGLE => p.single
  | .REFRESH => p.refresh

def PowerUps.set (p : PowerUps) (k : PowerUpType) (v : Int) : PowerUps :=
  match k with
  | .BOMB => { p with bomb := v }
  | .LINE => { p with line := v }
  | .COLOR => { p with color := v }
  | .SINGLE => { p with single := v }
  | .REFRESH => { p with refresh := v }

/-- `POWER_UP_COSTS` from the source. -/
def POWER_UP_COSTS : PowerUpType → Int
  | .BOMB => 100
  | .LINE => 80
  | .COLOR => 120
  | .SINGLE => 50
  | .REFRESH => 25

/-- Helper: read a grid cell at integer coordinates; out-of-bounds reads
return `none` (the source never reads out of bounds: it checks bounds first). -/
def cellAt (g : Grid) (r c : Int) : GridCell :=
  if h : 0 ≤ r ∧ r < 8 ∧ 0 ≤ c ∧ c < 8 then
    g ⟨r.toNat, by omega⟩ ⟨c.toNat, by omega⟩
  else none

/-- Bounds test `0 ≤ r < 8 ∧ 0 ≤ c < 8` used by the placement loops. -/
def inBounds (r c : Int) : Bool :=
  0 ≤ r && r < 8 && 0 ≤ c && c < 8

/-- `rotateLayout` from the source: rotate a bitmap 90° clockwise.
`rows = layout.length`, `cols = layout[0].length`, and the result satisfies
`newLayout[c][rows - 1 - r] = layout[r][c]`. -/
def rotateLayout (layout : Layout) : Layout :=
  (List.range ((layout.headD []).length)).map fun c =>
    (List.range layout.length).map fun k =>
      (layout.getD (layout.length - 1 - k) []).getD c 0

/-- `canPlaceShape` from the source: every set bit of the layout at local
offset `(i, j)` must land in bounds on an empty cell. -/
def canPlaceShape (r c : Int) (layout : Layout) (grid : Grid) : Bool :=
  (List.range layout.length).all fun i =>
    (List.range ((layout.getD i []).length)).all fun j =>
      if (layout.getD i []).getD j 0 = 1 then
        inBounds (r + (i : Int)) (c + (j : Int)) &&
          (cellAt grid (r + (i : Int)) (c + (j : Int))).isNone
      else true

/-- Does the placement loop of `handleGridClick` write to absolute cell
`(i, j)`? True when some set bit of the layout lands there. -/
def covers (r c : Int) (layout : Layout) (i j : Fin 8) : Bool :=
  (List.range layout.length).any fun li =>
    (List.range ((layout.getD li []).length)).any fun lj =>
      (layout.getD li []).getD lj 0 = 1 &&
        r + (li : Int) = (i : Int) && c + (lj : Int) = (j : Int)

/-- The grid after the placement loop of `handleGridClick` stamped every
targeted in-bounds cell with the piece's color. -/
def placeShape (r c : Int) (layout : Layout) (color : String) (grid : Grid) : Grid :=
  fun i j => if covers r c layout i j then some color else grid i j

/-- `placedCount` from `handleGridClick`: the number of set bits of the layout
that land inside the grid. -/
def placedCount (r c : Int) (layout : Layout) : Nat :=
  ((List.range layout.length).map fun i =>
    ((List.range ((layout.getD i []).length)).filter fun j =>
      (layout.getD i []).getD j 0 = 1 && inBounds (r + (i : Int)) (c + (j : Int))).length).sum

/-- A row is full when every cell is non-null (`newGrid[i].every(cell => cell !== null)`). -/
def fullRow (g : Grid) (i : Fin 8) : Bool :=
  (List.finRange 8).all fun j => (g i j).isSome

/-- A column is full when every cell is non-null. -/
def fullCol (g : Grid) (j : Fin 8) : Bool :=
  (List.finRange 8).all fun i => (g i j).isSome

/-- `linesToClearRow`: indices of fully-filled rows, scanned in order. -/
def rowsToClear (g : Grid) : List (Fin 8) :=
  (List.finRange 8).filter (fullRow g)

/-- `linesToClearCol`: indices of fully-filled columns, scanned in order. -/
def colsToClear (g : Grid) : List (Fin 8) :=
  (List.finRange 8).filter (fullCol g)

/-- The deferred clearing step of `handleGridClick`: every cell of a matched
row or column becomes empty. -/
def clearLines (g : Grid) (rows cols : List (Fin 8)) : Grid :=
  fun i j => if i ∈ rows ∨ j ∈ cols then none else g i j

/-- `multiLineMultiplier` from `handleGridClick`:
`totalLines > 3 ? 3 : (totalLines > 1 ? totalLines * 0.8 : 1)`. -/
def multiLineMultiplier (totalLines : Nat) : ℚ :=
  if totalLines > 3 then 3 else if totalLines > 1 then (totalLines : ℚ) * 0.8 else 1

/-- `totalBonus` from `handleGridClick`, with `newCombo`/`newStreak` the
already-incremented counters:
`floor(totalLines * 150 * multiLine * (1 + newCombo*0.2) * (1 + newStreak*0.1))`. -/
def lineBonus (totalLines newCombo newStreak : Nat) : Int :=
  ⌊((totalLines : ℚ) * 150) * multiLineMultiplier totalLines *
      (1 + (newCombo : ℚ) * 0.2) * (1 + (newStreak : ℚ) * 0.1)⌋

/-- `shapes.filter((_, i) => i !== selectedShapeIdx)` from `handleGridClick`
and `handleHoldShape`: drop the element whose position equals `idx`. -/
def removeAtIdx {α : Type} (l : List α) (idx : Nat) : List α :=
  (l.enum.filter fun p => p.1 ≠ idx).map Prod.snd

/-- The board-engine state held by the `BlockGame` component: grid, dock,
hold slot, score, combo/streak counters, power-up inventory, the rescue and
terminal flags, and the coin balance owned by the surrounding app. -/
structure BoardState where
  grid : Grid
  shapes : List Shape
  holdShape : Option Shape
  score : Int
  comboCount : Nat
  streakCount : Nat
  powerUps : PowerUps
  rescueMode : Bool
  isGameOver : Bool
  coins : Int
deriving DecidableEq

/-- The milestone reward of `handleGridClick`: when
`totalLines >= 3 || newCombo >= 4 || newStreak >= 5`, one random power-up is
granted; the random choice is passed in as `reward`. -/
def grantReward (p : PowerUps) (reward : PowerUpType) : PowerUps :=
  p.set reward (p.get reward + 1)

/-- The piece-placement path of `handleGridClick`: anchor `(r, c)`, selected
dock index `idx`, and the random milestone reward choice `reward`.
Rejections (game over without rescue, no selected shape, `canPlaceShape`
failing) leave the state unchanged.  On a line clear the committed decision
(cleared grid, dock, score, counters) is embedded directly; the source defers
only the visual emptying. -/
def placePiece (st : BoardState) (r c : Int) (idx : Nat) (reward : PowerUpType) :
    BoardState :=
  if st.isGameOver && !st.rescueMode then st
  else
    match st.shapes.get? idx with
    | none => st
    | some shape =>
      if canPlaceShape r c shape.layout st.grid then
        let newGrid := placeShape r c shape.layout shape.color st.grid
        let rows := rowsToClear newGrid
        let cols := colsToClear newGrid
        let totalLines := rows.length + cols.length
        let points := placedCount r c shape.layout
        if totalLines > 0 then
          let newCombo := st.comboCount + 1
          let newStreak := st.streakCount + 1
          let bonus := lineBonus totalLines newCombo newStreak
          let pu := if totalLines ≥ 3 || newCombo ≥ 4 || newStreak ≥ 5 then
              grantReward st.powerUps reward else st.powerUps
          { st with
            grid := clearLines newGrid rows cols
            shapes := removeAtIdx st.shapes idx
            score := st.score + points + bonus
            comboCount := newCombo
            streakCount := newStreak
            powerUps := pu }
        else
          { st with
            grid := newGrid
            shapes := removeAtIdx st.shapes idx
            score := st.score + points
            comboCount := 0
            streakCount := 0 }
      else st

/-- `canPlaceShapeAnywhere` from `checkGameOver`: scan every anchor of the
8x8 grid. -/
def canPlaceShapeAnywhere (layout : Layout) (grid : Grid) : Bool :=
  (List.finRange 8).any fun rr =>
    (List.finRange 8).any fun cc =>
      canPlaceShape (rr : Int) (cc : Int) layout grid

/-- `canFitShapeWithRotation` from `checkGameOver`: try the layout and its
three successive clockwise rotations. -/
def canFitShapeWithRotation (layout : Layout) (grid : Grid) : Bool :=
  (List.range 4).any fun k => canPlaceShapeAnywhere (rotateLayout^[k] layout) grid

/-- Result of the stuck-detection check: the updated state, the emitted
game-over event (`onGameOver(score)`), and whether the persisted session
snapshot was purged (`storageService.clearGameSession()`). -/
structure CheckResult where
  state : BoardState
  gameOverEvent : Option Int
  sessionCleared : Bool
deriving DecidableEq

/-- The body of the stuck-detection timeout in `checkGameOver`: when no dock
piece and no held piece fits, enter rescue if any power-up unit is held or
any kind is affordable, otherwise enter terminal (clear the session, emit
the game-over event). When some piece fits, clear the rescue flag. -/
def checkGameOverStep (st : BoardState) : CheckResult :=
  if st.isGameOver then ⟨st, none, false⟩
  else if st.shapes.length = 0 then ⟨st, none, false⟩
  else
    let canMove := (st.shapes.any fun s => canFitShapeWithRotation s.layout st.grid) ||
      (match st.holdShape with
       | some h => canFitShapeWithRotation h.layout st.grid
       | none => false)
    if canMove then ⟨{ st with rescueMode := false }, none, false⟩
    else
      let hasPowerUps := st.powerUps.bomb > 0 || st.powerUps.line > 0 ||
        st.powerUps.color > 0 || st.powerUps.single > 0 || st.powerUps.refresh > 0
      let canBuy := st.coins ≥ POWER_UP_COSTS .BOMB || st.coins ≥ POWER_UP_COSTS .LINE ||
        st.coins ≥ POWER_UP_COSTS .COLOR || st.coins ≥ POWER_UP_COSTS .SINGLE ||
        st.coins ≥ POWER_UP_COSTS .REFRESH
      if hasPowerUps || canBuy then ⟨{ st with rescueMode := true }, none, false⟩
      else ⟨{ st with isGameOver := true }, some st.score, true⟩

/-- Spec-side predicate: no dock piece and no held piece can be placed at any
grid anchor in any of its four rotations. -/
def NoPieceFits (st : BoardState) : Prop :=
  (∀ s ∈ st.shapes, ∀ k, k < 4 → ∀ rr cc : Fin 8,
    ¬ canPlaceShape (rr : Int) (cc : Int) (rotateLayout^[k] s.layout) st.grid = true) ∧
  (∀ h ∈ st.holdShape.toList, ∀ k, k < 4 → ∀ rr cc : Fin 8,
    ¬ canPlaceShape (rr : Int) (cc : Int) (rotateLayout^[k] h.layout) st.grid = true)

/-- Spec-side predicate: the player holds at least one power-up unit of some
kind, or can afford at least one kind. -/
def HasRecovery (st : BoardState) : Prop :=
  (∃ k : PowerUpType, st.powerUps.get k > 0) ∨
  (∃ k : PowerUpType, st.coins ≥ POWER_UP_COSTS k)

instance (st : BoardState) : Decidable (NoPieceFits st) := by
  unfold NoPieceFits
  infer_instance

instance (st : BoardState) : Decidable (HasRecovery st) := by
  unfold HasRecovery
  infer_instance

/-- The `BOMB` branch of `getPowerUpAffectedCells`: the 3x3 block around the
target, clipped to the grid. -/
def bombCells (r c : Fin 8) : List (Fin 8 × Fin 8) :=
  ([-1, 0, 1] : List Int).flatMap fun di =>
    ([-1, 0, 1] : List Int).filterMap fun dj =>
      let nr := (r : Int) + di
      let nc := (c : Int) + dj
      if h : 0 ≤ nr ∧ nr < 8 ∧ 0 ≤ nc ∧ nc < 8 then
        some (⟨nr.toNat, by omega⟩, ⟨nc.toNat, by omega⟩)
      else none

/-- The `LINE` branch of `getPowerUpAffectedCells`: for each index `i`, both
`(r, i)` and `(i, c)` are pushed. -/
def lineCells (r c : Fin 8) : List (Fin 8 × Fin 8) :=
  (List.finRange 8).flatMap fun i => [(r, i), (i, c)]

/-- The `COLOR` branch of `getPowerUpAffectedCells`: every cell holding the
target cell's color; empty when the target cell is empty. -/
def colorCells (g : Grid) (r c : Fin 8) : List (Fin 8 × Fin 8) :=
  match g r c with
  | none => []
  | some targetColor =>
    (List.finRange 8).flatMap fun i =>
      (List.finRange 8).filterMap fun j =>
        if g i j = some targetColor then some (i, j) else none

/-- `getPowerUpAffectedCells` from the source. -/
def getPowerUpAffectedCells (g : Grid) (r c : Fin 8) :
    PowerUpType → List (Fin 8 × Fin 8)
  | .BOMB => bombCells r c
  | .LINE => lineCells r c
  | .COLOR => colorCells g r c
  | .SINGLE => [(r, c)]
  | .REFRESH => []

/-- Functional update of one grid cell. -/
def updateCell (g : Grid) (r c : Fin 8) (v : GridCell) : Grid :=
  fun i j => if i = r ∧ j = c then v else g i j

/-- The clearing loop of `executePowerUp`: walk the affected-cell list,
emptying each currently non-empty cell and counting it. -/
def clearCells (g : Grid) : List (Fin 8 × Fin 8) → Grid × Nat
  | [] => (g, 0)
  | p :: rest =>
    if (g p.1 p.2).isSome then
      let res := clearCells (updateCell g p.1 p.2 none) rest
      (res.1, res.2 + 1)
    else clearCells g rest

/-- `executePowerUp` from the source, with `kind` the armed power-up:
rejects `COLOR`/`SINGLE` on an empty target; otherwise clears the affected
non-empty cells, awards `clearedCount * 20`, consumes one unit of `kind`,
and leaves rescue mode. -/
def executePowerUp (st : BoardState) (kind : PowerUpType) (r c : Fin 8) : BoardState :=
  if kind = .REFRESH then st
  else if (kind = .COLOR || kind = .SINGLE) && (st.grid r c).isNone then st
  else
    let cells := getPowerUpAffectedCells st.grid r c kind
    if cells.length = 0 then st
    else
      let res := clearCells st.grid cells
      { st with
        grid := res.1
        score := st.score + res.2 * 20
        powerUps := st.powerUps.set kind (st.powerUps.get kind - 1)
        rescueMode := false }

/-- `handleHoldShape`: swap the selected dock piece with the held piece, or
stash it when the hold slot is empty. -/
def holdStep (st : BoardState) (idx : Nat) : BoardState :=
  match st.shapes.get? idx with
  | none => st
  | some shapeToHold =>
    match st.holdShape with
    | some held =>
      { st with
        shapes := st.shapes.set idx held
        holdShape := some shapeToHold }
    | none =>
      { st with
        shapes := removeAtIdx st.shapes idx
        holdShape := some shapeToHold }

/-- `handleRotateShape`: replace the selected piece's layout with its
clockwise rotation, in place. -/
def rotateStep (st : BoardState) (idx : Nat) : BoardState :=
  match st.shapes.get? idx with
  | none => st
  | some s =>
    { st with shapes := st.shapes.set idx { s with layout := rotateLayout s.layout } }

/-- Applying an armed power-up through `handleGridClick`: the click is
ignored in terminal-without-rescue state, and a power-up can only be armed
while a unit is held (`handlePowerUpClick`). -/
def applyPowerUpStep (st : BoardState) (kind : PowerUpType) (r c : Fin 8) : BoardState :=
  if st.isGameOver && !st.rescueMode then st
  else if st.powerUps.get kind > 0 then executePowerUp st kind r c
  else st

/-- The purchase branch of `handlePowerUpClick`: when the kind's count is 0
and enough coins are held, pay the cost; `REFRESH` triggers its effect
immediately (`activateRefresh(true)`), other kinds gain one armed unit. -/
def purchaseStep (st : BoardState) (kind : PowerUpType) (newShapes : List Shape) :
    BoardState :=
  if st.powerUps.get kind ≤ 0 then
    if st.coins ≥ POWER_UP_COSTS kind then
      if kind = .REFRESH then
        { st with
          coins := st.coins - POWER_UP_COSTS kind
          shapes := newShapes
          rescueMode := false }
      else
        { st with
          coins := st.coins - POWER_UP_COSTS kind
          powerUps := st.powerUps.set kind (st.powerUps.get kind + 1) }
    else st
  else st

/-- `activateRefresh(false)`: consume one `REFRESH` unit, regenerate the dock
(the random new dock is passed in), leave rescue mode. -/
def useRefreshStep (st : BoardState) (newShapes : List Shape) : BoardState :=
  if st.powerUps.refresh > 0 then
    { st with
      powerUps := { st.powerUps with refresh := st.powerUps.refresh - 1 }
      shapes := newShapes
      rescueMode := false }
  else st

/-- A deferred `generateShapes` firing (dock replenishment); the random dock
is passed in. -/
def regenerateStep (st : BoardState) (newShapes : List Shape) : BoardState :=
  { st with shapes := newShapes }

/-- `resetGame`: fresh grid, score and counters, both flags cleared, new
dock; the power-up inventory and coins persist. -/
def resetStep (st : BoardState) (newShapes : List Shape) : BoardState :=
  { st with
    grid := fun _ _ => none
    shapes := newShapes
    holdShape := none
    score := 0
    comboCount := 0
    streakCount := 0
    rescueMode := false
    isGameOver := false }

/-- The stuck-detection check as driven by its effect hook: it only fires on
a non-empty dock while neither flag is set. -/
def stuckCheckStep (st : BoardState) : BoardState :=
  if st.shapes.length > 0 && !st.isGameOver && !st.rescueMode then
    (checkGameOverStep st).state
  else st

/-- The board operations reachable from the UI; random choices (new docks,
milestone rewards) are carried as operation parameters. -/
inductive Op where
  | place (r c : Int) (idx : Nat) (reward : PowerUpType)
  | holdPiece (idx : Nat)
  | rotatePiece (idx : Nat)
  | applyPowerUp (kind : PowerUpType) (r c : Fin 8)
  | purchasePowerUp (kind : PowerUpType) (newShapes : List Shape)
  | useRefresh (newShapes : List Shape)
  | regenerateDock (newShapes : List Shape)
  | stuckCheck
  | reset (newShapes : List Shape)

/-- One step of the board state machine. -/
def applyOp (st : BoardState) : Op → BoardState
  | .place r c idx reward => placePiece st r c idx reward
  | .holdPiece idx => holdStep st idx
  | .rotatePiece idx => rotateStep st idx
  | .applyPowerUp kind r c => applyPowerUpStep st kind r c
  | .purchasePowerUp kind newShapes => purchaseStep st kind newShapes
  | .useRefresh newShapes => useRefreshStep st newShapes
  | .regenerateDock newShapes => regenerateStep st newShapes
  | .stuckCheck => stuckCheckStep st
  | .reset newShapes => resetStep st newShapes

/-- Rectangularity of a layout: `R` rows, each of length `C`. -/
def IsRect (L : Layout) (R C : Nat) : Prop :=
  L.length = R ∧ ∀ row ∈ L, row.length = C

/-- A card move (`Move` in `types.ts`). -/
structure Move where
  name : String
  damage : String
  cost : Int
  description : String
deriving DecidableEq, Repr

/-- A card record (`MonsterCard` in `types.ts`); the `type` field is renamed
`cardType` (`type` is reserved), enum-valued fields are embedded as strings,
and the optional `imageUrl`/`isShiny` fields as options. -/
structure MonsterCard where
  id : String
  name : String
  cardType : String
  hp : Int
  rarity : String
  flavorText : String
  moves : List Move
  visualPrompt : String
  imageUrl : Option String
  isShiny : Option Bool
deriving DecidableEq, Repr

/-- `storageService.loadInventory`: one record per stored card, with any
image payload longer than 100 characters replaced by the `"stored"` marker
(`if (lightweightCard.imageUrl && lightweightCard.imageUrl.length > 100)`). -/
def loadInventory (stored : List MonsterCard) : List MonsterCard :=
  stored.map fun card =>
    match card.imageUrl with
    | some url =>
      if url.length > 100 then { card with imageUrl := some "stored" } else card
    | none => card

/-! ### Concrete demonstration states used by the witnesses -/

/-- Grid with row 0 filled in columns 1–7, all other cells empty. -/
def demoGrid : Grid := fun i j => if i = 0 ∧ 1 ≤ (j : Nat) then some "red" else none

def demoOneByOne : Shape := { id := "demo-1x1", layout := [[1]], color := "blue" }

def demoOneByThree : Shape := { id := "demo-1x3", layout := [[1, 1, 1]], color := "gold" }

def demoPowerUps : PowerUps := ⟨1, 1, 1, 1, 1⟩

/-- The row-completion scenario: row 0 filled in columns 1–7, a 1x1 piece in
the dock, zero counters. -/
def demoLineState : BoardState :=
  { grid := demoGrid, shapes := [demoOneByOne], holdShape := none, score := 0,
    comboCount := 0, streakCount := 0, powerUps := demoPowerUps,
    rescueMode := false, isGameOver := false, coins := 0 }

/-- The no-clear scenario: empty grid, a 1x3 piece in the dock. -/
def demoEmptyState : BoardState :=
  { grid := fun _ _ => none, shapes := [demoOneByThree], holdShape := none,
    score := 0, comboCount := 0, streakCount := 0, powerUps := demoPowerUps,
    rescueMode := false, isGameOver := false, coins := 0 }

/-- A stuck state without recovery: full grid, a 1x1 piece in the dock, no
power-up units, no coins. -/
def demoStuckState : BoardState :=
  { grid := fun _ _ => some "red", shapes := [demoOneByOne], holdShape := none,
    score := 320, comboCount := 0, streakCount := 0, powerUps := ⟨0, 0, 0, 0, 0⟩,
    rescueMode := false, isGameOver := false, coins := 0 }

/-- A 101-character image payload. -/
def demoLongUrl : String := String.mk (List.replicate 101 'a')

def demoCard : MonsterCard :=
  { id := "card-1", name := "Nissefar", cardType := "Fairy", hp := 120,
    rarity := "Rare", flavorText := "Jul!", moves := [], visualPrompt := "santa",
    imageUrl := some demoLongUrl, isShiny := some false }

/-! ### Basic lemmas -/

theorem inBounds_eq_true {r c : Int} :
    inBounds r c = true ↔ 0 ≤ r ∧ r < 8 ∧ 0 ≤ c ∧ c < 8 := by
  simp [inBounds, and_assoc]

theorem removeAtIdx_enumFrom {α : Type} (l : List α) :
    ∀ n idx : Nat, (((l.enumFrom n).filter fun p => p.1 ≠ idx).map Prod.snd) =
      if n ≤ idx then l.eraseIdx (idx - n) else l := by
  induction l with
  | nil => intro n idx; simp [List.eraseIdx]
  | cons a l ih =>
    intro n idx
    by_cases hn : n = idx
    · subst hn
      simp only [List.enumFrom, List.filter_cons, decide_eq_true_eq, ne_eq,
        not_true_eq_false, if_false]
      rw [ih (n + 1) n]
      simp [List.eraseIdx]
    · simp only [List.enumFrom, List.filter_cons, decide_eq_true_eq, ne_eq, hn,
        not_false_eq_true, if_true, List.map_cons]
      rw [ih (n + 1) idx]
      rcases Nat.lt_or_ge idx n with hlt | hge
      · rw [if_neg (by omega), if_neg (by omega)]
      · have hgt : n < idx := by omega
        rw [if_pos (by omega), if_pos (by omega)]
        have : idx - n = (idx - (n + 1)) + 1 := by omega
        rw [this, List.eraseIdx_cons_succ]

theorem removeAtIdx_eq_eraseIdx {α : Type} (l : List α) (idx : Nat) :
    removeAtIdx l idx = l.eraseIdx idx := by
  have h := removeAtIdx_enumFrom l 0 idx
  rw [if_pos (Nat.zero_le idx), Nat.sub_zero] at h
  exact h

/-! ### C6: the placement validator -/

/-- C6: `canPlaceShape r c layout grid` returns `true` iff every set bit of
the layout at local offset `(i, j)` lands on an in-bounds, empty cell
`(r+i, c+j)`; the function takes the grid as a value and returns the same
result on repeated calls (purity is definitional in the embedding). -/
theorem canPlaceShape_characterization (r c : Int) (layout : Layout) (grid : Grid) :
    (canPlaceShape r c layout grid = true ↔
      ∀ i j : Nat, i < layout.length → j < (layout.getD i []).length →
        (layout.getD i []).getD j 0 = 1 →
          (0 ≤ r + i ∧ r + i < 8 ∧ 0 ≤ c + j ∧ c + j < 8) ∧
            cellAt grid (r + i) (c + j) = none) ∧
    canPlaceShape r c layout grid = canPlaceShape r c layout grid := by
  refine ⟨?_, rfl⟩
  unfold canPlaceShape
  simp only [List.all_eq_true, List.mem_range]
  constructor
  · intro h i j hi hj hbit
    have h2 := h i hi j hj
    rw [if_pos hbit, Bool.and_eq_true, inBounds_eq_true] at h2
    simp only [Option.isNone_iff_eq_none] at h2
    exact h2
  · intro h i hi j hj
    by_cases hbit : (layout.getD i []).getD j 0 = 1
    · rw [if_pos hbit, Bool.and_eq_true, inBounds_eq_true]
      simp only [Option.isNone_iff_eq_none]
      exact h i j hi hj hbit
    · rw [if_neg hbit]

/-! ### C1 and C8: the placement transition -/

/-- C1: a valid placement that completes `L` rows plus `M` columns with
`L + M > 0` increments both counters and adds
`cells-filled + floor(totalLines * 150 * lineMultiplier * comboMultiplier *
streakMultiplier)` to the score, where the multipliers use the
post-increment counter values. -/
theorem placement_line_clear_scoring (st : BoardState) (r c : Int) (idx : Nat)
    (shape : Shape) (reward : PowerUpType) (L M : Nat)
    (hgo : st.isGameOver = false)
    (hidx : st.shapes.get? idx = some shape)
    (hcan : canPlaceShape r c shape.layout st.grid = true)
    (hrows : (rowsToClear (placeShape r c shape.layout shape.color st.grid)).length = L)
    (hcols : (colsToClear (placeShape r c shape.layout shape.color st.grid)).length = M)
    (hpos : 0 < L + M) :
    (placePiece st r c idx reward).comboCount = st.comboCount + 1 ∧
    (placePiece st r c idx reward).streakCount = st.streakCount + 1 ∧
    (placePiece st r c idx reward).score =
      st.score + placedCount r c shape.layout +
        ⌊(((L + M : ℕ) : ℚ) * 150) *
            (if L + M > 3 then (3 : ℚ)
              else if L + M > 1 then ((L + M : ℕ) : ℚ) * 0.8 else 1) *
            (1 + ((st.comboCount : ℚ) + 1) * 0.2) *
            (1 + ((st.streakCount : ℚ) + 1) * 0.1)⌋ := by
  unfold placePiece
  rw [hgo]
  simp only [Bool.false_and, Bool.false_eq_true, if_false, hidx]
  rw [if_pos hcan, hrows, hcols]
  rw [if_pos hpos]
  refine ⟨rfl, rfl, ?_⟩
  have hb : lineBonus (L + M) (st.comboCount + 1) (st.streakCount + 1) =
      ⌊(((L + M : ℕ) : ℚ) * 150) *
          (if L + M > 3 then (3 : ℚ)
            else if L + M > 1 then ((L + M : ℕ) : ℚ) * 0.8 else 1) *
          (1 + ((st.comboCount : ℚ) + 1) * 0.2) *
          (1 + ((st.streakCount : ℚ) + 1) * 0.1)⌋ := by
    unfold lineBonus multiLineMultiplier
    congr 1
    push_cast
    ring
  rw [← hb]

/-- C8: a valid placement that completes no full row and no full column
awards exactly the number of filled cells, resets both counters to 0, and
removes the placed piece from the dock. -/
theorem placement_no_line_scoring (st : BoardState) (r c : Int) (idx : Nat)
    (shape : Shape) (reward : PowerUpType)
    (hgo : st.isGameOver = false)
    (hidx : st.shapes.get? idx = some shape)
    (hcan : canPlaceShape r c shape.layout st.grid = true)
    (hlines : (rowsToClear (placeShape r c shape.layout shape.color st.grid)).length +
        (colsToClear (placeShape r c shape.layout shape.color st.grid)).length = 0) :
    (placePiece st r c idx reward).score = st.score + placedCount r c shape.layout ∧
    (placePiece st r c idx reward).comboCount = 0 ∧
    (placePiece st r c idx reward).streakCount = 0 ∧
    (placePiece st r c idx reward).shapes = st.shapes.eraseIdx idx := by
  unfold placePiece
  rw [hgo]
  simp only [Bool.false_and, Bool.false_eq_true, if_false, hidx]
  rw [if_pos hcan, hlines]
  rw [if_neg (by omega : ¬(0 : ℕ) > 0)]
  exact ⟨rfl, rfl, rfl, removeAtIdx_eq_eraseIdx st.shapes idx⟩

/-- Witness for C1: on the grid with row 0 filled in columns 1–7, placing the
1x1 piece at (0,0) with zero counters scores exactly 199 and sets both
counters to 1. -/
theorem placement_line_clear_scoring_witness :
    (placePiece demoLineState 0 0 0 PowerUpType.BOMB).score = 199 ∧
    (placePiece demoLineState 0 0 0 PowerUpType.BOMB).comboCount = 1 ∧
    (placePiece demoLineState 0 0 0 PowerUpType.BOMB).streakCount = 1 := by
  obtain ⟨h1, h2, h3⟩ := placement_line_clear_scoring demoLineState 0 0 0 demoOneByOne
    PowerUpType.BOMB 1 0 (by decide) (by decide) (by decide) (by decide) (by decide)
    (by decide)
  refine ⟨?_, h1, h2⟩
  rw [h3, show placedCount 0 0 demoOneByOne.layout = 1 from by decide,
    show demoLineState.score = 0 from rfl,
    show demoLineState.comboCount = 0 from rfl,
    show demoLineState.streakCount = 0 from rfl]
  norm_num

/-- Witness for C8: placing a 1x3 piece on the empty grid completes no line,
scores exactly 3, zeroes the counters, and empties the one-piece dock. -/
theorem placement_no_line_scoring_witness :
    (placePiece demoEmptyState 0 0 0 PowerUpType.BOMB).score = 3 ∧
    (placePiece demoEmptyState 0 0 0 PowerUpType.BOMB).comboCount = 0 ∧
    (placePiece demoEmptyState 0 0 0 PowerUpType.BOMB).streakCount = 0 ∧
    (placePiece demoEmptyState 0 0 0 PowerUpType.BOMB).shapes = [] := by
  obtain ⟨h1, h2, h3, h4⟩ := placement_no_line_scoring demoEmptyState 0 0 0 demoOneByThree
    PowerUpType.BOMB (by decide) (by decide) (by decide) (by decide)
  refine ⟨?_, h2, h3, ?_⟩
  · rw [h1]; decide
  · rw [h4]; decide

/-! ### C7: the rotation transform -/

theorem getD_map_range {α : Type} (n : Nat) (f : Nat → α) (i : Nat) (hi : i < n)
    (d : α) : ((List.range n).map f).getD i d = f i := by
  rw [List.getD_eq_getElem?_getD, List.getElem?_map]
  rw [List.getElem?_range hi]
  rfl

theorem headD_length_of_isRect (L : Layout) (R C : Nat) (h : IsRect L R C)
    (hR : 0 < R) : (L.headD []).length = C := by
  obtain ⟨hlen, hrow⟩ := h
  cases L with
  | nil => simp at hlen; omega
  | cons a l => exact hrow a (by simp)

theorem rotateLayout_entry (L : Layout) (R C : Nat) (h : IsRect L R C) (hR : 0 < R)
    {c k : Nat} (hc : c < C) (hk : k < R) :
    ((rotateLayout L).getD c []).getD k 0 = (L.getD (R - 1 - k) []).getD c 0 := by
  have hhead := headD_length_of_isRect L R C h hR
  unfold rotateLayout
  rw [getD_map_range _ _ c (by rw [hhead]; exact hc)]
  rw [getD_map_range _ _ k (by rw [h.1]; exact hk)]
  rw [h.1]

theorem rotateLayout_isRect (L : Layout) (R C : Nat) (h : IsRect L R C)
    (hR : 0 < R) : IsRect (rotateLayout L) C R := by
  have hhead := headD_length_of_isRect L R C h hR
  constructor
  · rw [rotateLayout]
    simp only [List.length_map, List.length_range]
    exact hhead
  · intro row hmem
    rw [rotateLayout] at hmem
    simp only [List.mem_map, List.mem_range] at hmem
    obtain ⟨c, hc, rfl⟩ := hmem
    simp [h.1]

theorem getD_of_ge {α : Type} (l : List α) (d : α) (i : Nat) (hi : l.length ≤ i) :
    l.getD i d = d := by
  rw [List.getD_eq_getElem?_getD, List.getElem?_eq_none hi]
  rfl

theorem getD_mem {α : Type} (l : List α) (d : α) (i : Nat) (hi : i < l.length) :
    l.getD i d ∈ l := by
  rw [List.getD_eq_getElem l d hi]
  exact List.getElem_mem hi

theorem row_ext (a : List Nat) : ∀ b : List Nat, a.length = b.length →
    (∀ j, a.getD j 0 = b.getD j 0) → a = b := by
  induction a with
  | nil => intro b hab _; cases b with | nil => rfl | cons y b2 => simp at hab
  | cons x a2 ih =>
    intro b hab h
    cases b with
    | nil => simp at hab
    | cons y b2 =>
      have h0 := h 0
      simp only [List.getD_cons_zero] at h0
      rw [h0, ih b2 (by simpa using hab)
        (fun j => by simpa only [List.getD_cons_succ] using h (j + 1))]

theorem layout_ext (A : Layout) : ∀ B : Layout, A.length = B.length →
    (∀ r, (A.getD r []).length = (B.getD r []).length) →
    (∀ r c, (A.getD r []).getD c 0 = (B.getD r []).getD c 0) → A = B := by
  induction A with
  | nil => intro B hAB _ _; cases B with | nil => rfl | cons b B2 => simp at hAB
  | cons a A2 ih =>
    intro B hAB hrows h
    cases B with
    | nil => simp at hAB
    | cons b B2 =>
      have hhead : a = b :=
        row_ext a b (by simpa using hrows 0) (fun j => by simpa using h 0 j)
      rw [hhead, ih B2 (by simpa using hAB)
        (fun r => by simpa only [List.getD_cons_succ] using hrows (r + 1))
        (fun r c => by simpa only [List.getD_cons_succ] using h (r + 1) c)]

/-- C7: for every nonempty rectangular R x C bitmap, `rotateLayout` returns a
C x R bitmap with `layout'[c][R-1-r] = layout[r][c]`, and four successive
applications return the original layout. -/
theorem rotateLayout_spec (L : Layout) (R C : Nat) (h : IsRect L R C)
    (hR : 0 < R) (hC : 0 < C) :
    (rotateLayout L).length = C ∧
    (∀ row ∈ rotateLayout L, row.length = R) ∧
    (∀ r, r < R → ∀ c, c < C →
      ((rotateLayout L).getD c []).getD (R - 1 - r) 0 = (L.getD r []).getD c 0) ∧
    rotateLayout (rotateLayout (rotateLayout (rotateLayout L))) = L := by
  have h1 : IsRect (rotateLayout L) C R := rotateLayout_isRect L R C h hR
  refine ⟨h1.1, h1.2, ?_, ?_⟩
  · intro r hr c hc
    rw [rotateLayout_entry L R C h hR hc (by omega)]
    congr 2
    omega
  · have h2 : IsRect (rotateLayout (rotateLayout L)) R C :=
      rotateLayout_isRect _ C R h1 hC
    have h3 : IsRect (rotateLayout (rotateLayout (rotateLayout L))) C R :=
      rotateLayout_isRect _ R C h2 hR
    have h4 : IsRect (rotateLayout (rotateLayout (rotateLayout (rotateLayout L)))) R C :=
      rotateLayout_isRect _ C R h3 hC
    have l4 : (rotateLayout (rotateLayout (rotateLayout (rotateLayout L)))).length = R :=
      h4.1
    have lL : L.length = R := h.1
    apply layout_ext
    · rw [l4, lL]
    · intro r
      rcases Nat.lt_or_ge r R with hr | hr
      · have e1 : ((rotateLayout (rotateLayout (rotateLayout (rotateLayout L)))).getD
            r []).length = C :=
          h4.2 _ (getD_mem _ [] r (by omega))
        have e2 : (L.getD r []).length = C := h.2 _ (getD_mem _ [] r (by omega))
        rw [e1, e2]
      · rw [getD_of_ge _ [] r (by omega), getD_of_ge _ [] r (by omega)]
    · intro r c
      rcases Nat.lt_or_ge r R with hr | hr
      · rcases Nat.lt_or_ge c C with hc | hc
        · rw [rotateLayout_entry _ C R h3 hC hr hc]
          rw [rotateLayout_entry _ R C h2 hR (by omega : C - 1 - c < C) hr]
          rw [rotateLayout_entry _ C R h1 hC (by omega : R - 1 - r < R)
            (by omega : C - 1 - c < C)]
          have ec : C - 1 - (C - 1 - c) = c := by omega
          rw [ec]
          rw [rotateLayout_entry L R C h hR hc (by omega : R - 1 - r < R)]
          have er : R - 1 - (R - 1 - r) = r := by omega
          rw [er]
        · have e1 : ((rotateLayout (rotateLayout (rotateLayout (rotateLayout L)))).getD
              r []).length = C := h4.2 _ (getD_mem _ [] r (by omega))
          have e2 : (L.getD r []).length = C := h.2 _ (getD_mem _ [] r (by omega))
          rw [getD_of_ge _ 0 c (by omega), getD_of_ge _ 0 c (by omega)]
      · rw [getD_of_ge _ [] r (by omega), getD_of_ge _ [] r (by omega)]

/-- Witness for C7: the 2 x 2 L-bitmap rotates to the stated transpose-reverse
and returns to itself after four rotations. -/
theorem rotateLayout_spec_witness :
    (rotateLayout [[1, 0], [1, 1]]).length = 2 ∧
    (∀ row ∈ rotateLayout [[1, 0], [1, 1]], row.length = 2) ∧
    (∀ r, r < 2 → ∀ c, c < 2 →
      ((rotateLayout [[1, 0], [1, 1]]).getD c []).getD (2 - 1 - r) 0 =
        (([[1, 0], [1, 1]] : Layout).getD r []).getD c 0) ∧
    rotateLayout (rotateLayout (rotateLayout (rotateLayout [[1, 0], [1, 1]]))) =
      [[1, 0], [1, 1]] :=
  rotateLayout_spec [[1, 0], [1, 1]] 2 2 (by constructor <;> decide)
    (by decide) (by decide)

/-! ### C5: the affected-cell sets -/

theorem mem_bombCells (r c : Fin 8) (p : Fin 8 × Fin 8) :
    p ∈ bombCells r c ↔
      |(p.1 : Int) - (r : Int)| ≤ 1 ∧ |(p.2 : Int) - (c : Int)| ≤ 1 := by
  obtain ⟨p1, p2⟩ := p
  unfold bombCells
  simp only [List.mem_flatMap, List.mem_filterMap, List.mem_cons,
    List.mem_singleton, List.not_mem_nil, or_false]
  constructor
  · rintro ⟨di, hdi, dj, hdj, hsome⟩
    have hdi2 : -1 ≤ di ∧ di ≤ 1 := by rcases hdi with rfl | rfl | rfl <;> omega
    have hdj2 : -1 ≤ dj ∧ dj ≤ 1 := by rcases hdj with rfl | rfl | rfl <;> omega
    split at hsome
    case isTrue hb =>
      rw [Option.some.injEq, Prod.mk.injEq] at hsome
      obtain ⟨hp1, hp2⟩ := hsome
      have v1 : ((r : Int) + di).toNat = (p1 : Nat) := congrArg Fin.val hp1
      have v2 : ((c : Int) + dj).toNat = (p2 : Nat) := congrArg Fin.val hp2
      refine ⟨?_, ?_⟩ <;> rw [abs_le] <;> constructor <;> simp <;> omega
    case isFalse => simp at hsome
  · rintro ⟨h1, h2⟩
    rw [abs_le] at h1 h2
    have b1 : (p1 : Nat) < 8 := p1.isLt
    have b2 : (p2 : Nat) < 8 := p2.isLt
    refine ⟨(p1 : Int) - (r : Int), by omega, (p2 : Int) - (c : Int), by omega, ?_⟩
    rw [dif_pos (by omega)]
    rw [Option.some.injEq, Prod.mk.injEq]
    constructor <;> apply Fin.ext <;> simp

theorem mem_lineCells (r c : Fin 8) (p : Fin 8 × Fin 8) :
    p ∈ lineCells r c ↔ p.1 = r ∨ p.2 = c := by
  unfold lineCells
  simp only [List.mem_flatMap, List.mem_finRange, List.mem_cons,
    List.mem_singleton, List.not_mem_nil, or_false, true_and]
  constructor
  · rintro ⟨i, h | h⟩
    · left; rw [h]
    · right; rw [h]
  · rintro (h | h)
    · exact ⟨p.2, Or.inl (by rw [← h])⟩
    · exact ⟨p.1, Or.inr (by rw [← h])⟩

theorem mem_colorCells (g : Grid) (r c : Fin 8) (p : Fin 8 × Fin 8) :
    p ∈ colorCells g r c ↔ g r c ≠ none ∧ g p.1 p.2 = g r c := by
  unfold colorCells
  cases hgrc : g r c with
  | none => simp
  | some color =>
    simp only [List.mem_flatMap, List.mem_finRange, List.mem_filterMap, true_and,
      ne_eq, reduceCtorEq, not_false_eq_true]
    constructor
    · rintro ⟨i, j, hif⟩
      split at hif
      case isTrue hcol =>
        obtain ⟨h1, h2⟩ := Prod.mk.injEq _ _ _ _ ▸ Option.some.injEq _ _ ▸ hif
        rw [← h1, ← h2]
        exact hcol
      case isFalse => simp at hif
    · intro hp
      exact ⟨p.1, p.2, by rw [if_pos hp]⟩

theorem colorCells_of_empty (g : Grid) (r c : Fin 8) (h : g r c = none) :
    colorCells g r c = [] := by
  unfold colorCells
  rw [h]

/-- C5: for every in-bounds target `(r, c)`, the affected-cell set of the
area power-up is the 3x3 block centered there, of the cross power-up the
whole row united with the whole column, of the same-color power-up exactly
the cells holding the target's color tag (empty when the target is empty),
and of the single-cell power-up exactly the target. -/
theorem affected_cells_spec (g : Grid) (r c : Fin 8) :
    (∀ p : Fin 8 × Fin 8, p ∈ getPowerUpAffectedCells g r c .BOMB ↔
      |(p.1 : Int) - (r : Int)| ≤ 1 ∧ |(p.2 : Int) - (c : Int)| ≤ 1) ∧
    (∀ p : Fin 8 × Fin 8, p ∈ getPowerUpAffectedCells g r c .LINE ↔
      p.1 = r ∨ p.2 = c) ∧
    (∀ p : Fin 8 × Fin 8, p ∈ getPowerUpAffectedCells g r c .COLOR ↔
      g r c ≠ none ∧ g p.1 p.2 = g r c) ∧
    (g r c = none → getPowerUpAffectedCells g r c .COLOR = []) ∧
    (∀ p : Fin 8 × Fin 8, p ∈ getPowerUpAffectedCells g r c .SINGLE ↔ p = (r, c)) :=
  ⟨mem_bombCells r c, mem_lineCells r c, mem_colorCells g r c,
    colorCells_of_empty g r c, fun p => by simp [getPowerUpAffectedCells]⟩

/-! ### C4 and C10: the power-up resolver -/

theorem PowerUps.get_set_self (p : PowerUps) (k : PowerUpType) (v : Int) :
    (p.set k v).get k = v := by
  cases k <;> rfl

theorem PowerUps.get_set_of_ne (p : PowerUps) (k k2 : PowerUpType) (v : Int)
    (h : k2 ≠ k) : (p.set k v).get k2 = p.get k2 := by
  cases k <;> cases k2 <;> first | rfl | exact absurd rfl h

theorem clearCells_grid (cells : List (Fin 8 × Fin 8)) :
    ∀ (g : Grid) (i j : Fin 8), (clearCells g cells).1 i j =
      if (i, j) ∈ cells then none else g i j := by
  induction cells with
  | nil => intro g i j; simp [clearCells]
  | cons p rest ih =>
    intro g i j
    simp only [clearCells]
    split
    case isTrue hp =>
      rw [ih]
      by_cases hin : (i, j) ∈ rest
      · simp [hin]
      · rw [if_neg hin]
        by_cases hip : (i, j) = p
        · rw [if_pos (by rw [hip]; exact List.mem_cons_self p rest)]
          unfold updateCell
          rw [if_pos (by rw [Prod.ext_iff] at hip; exact hip)]
        · rw [if_neg (by simp [hip, hin])]
          unfold updateCell
          rw [if_neg (by rw [Prod.ext_iff] at hip; exact hip)]
    case isFalse hp =>
      rw [ih]
      have hgp : g p.1 p.2 = none := by
        rw [← Option.not_isSome_iff_eq_none]
        simpa using hp
      by_cases hin : (i, j) ∈ rest
      · simp [hin]
      · rw [if_neg hin]
        by_cases hip : (i, j) = p
        · rw [if_pos (by rw [hip]; exact List.mem_cons_self p rest)]
          rw [Prod.ext_iff] at hip
          have h1 : i = p.1 := hip.1
          have h2 : j = p.2 := hip.2
          rw [h1, h2]
          exact hgp
        · rw [if_neg (by simp [hip, hin])]

theorem clearCells_count (cells : List (Fin 8 × Fin 8)) :
    ∀ g : Grid, (clearCells g cells).2 =
      (Finset.univ.filter fun q : Fin 8 × Fin 8 =>
        q ∈ cells ∧ (g q.1 q.2).isSome = true).card := by
  induction cells with
  | nil => intro g; simp [clearCells]
  | cons p rest ih =>
    intro g
    simp only [clearCells]
    split
    case isTrue hp =>
      rw [ih]
      have hA : (Finset.univ.filter fun q : Fin 8 × Fin 8 =>
          q ∈ rest ∧ ((updateCell g p.1 p.2 none) q.1 q.2).isSome = true) =
          Finset.univ.filter fun q : Fin 8 × Fin 8 =>
            q ∈ rest ∧ q ≠ p ∧ (g q.1 q.2).isSome = true := by
        ext q
        simp only [Finset.mem_filter, Finset.mem_univ, true_and]
        unfold updateCell
        by_cases hqp : q.1 = p.1 ∧ q.2 = p.2
        · have : q = p := Prod.ext hqp.1 hqp.2
          rw [if_pos hqp]
          simp [this]
        · have hne : q ≠ p := fun h => hqp (Prod.ext_iff.mp h)
          rw [if_neg hqp]
          simp [hne]
      rw [hA]
      have hB : (Finset.univ.filter fun q : Fin 8 × Fin 8 =>
          q ∈ p :: rest ∧ (g q.1 q.2).isSome = true) =
          insert p (Finset.univ.filter fun q : Fin 8 × Fin 8 =>
            q ∈ rest ∧ q ≠ p ∧ (g q.1 q.2).isSome = true) := by
        ext q
        simp only [Finset.mem_insert, Finset.mem_filter, Finset.mem_univ, true_and,
          List.mem_cons]
        constructor
        · rintro ⟨hq | hq, hsome⟩
          · exact Or.inl hq
          · by_cases hqp : q = p
            · exact Or.inl hqp
            · exact Or.inr ⟨hq, hqp, hsome⟩
        · rintro (rfl | ⟨hq, hne, hsome⟩)
          · exact ⟨Or.inl rfl, hp⟩
          · exact ⟨Or.inr hq, hsome⟩
      rw [hB, Finset.card_insert_of_not_mem (by simp)]
    case isFalse hp =>
      rw [ih]
      have hgp : g p.1 p.2 = none := by
        rw [← Option.not_isSome_iff_eq_none]
        simpa using hp
      congr 1
      ext q
      simp only [Finset.mem_filter, Finset.mem_univ, true_and, List.mem_cons]
      constructor
      · rintro ⟨hq, hsome⟩
        exact ⟨Or.inr hq, hsome⟩
      · rintro ⟨rfl | hq, hsome⟩
        · rw [hgp] at hsome
          simp at hsome
        · exact ⟨hq, hsome⟩

theorem target_mem_affected (st : BoardState) (kind : PowerUpType) (r c : Fin 8)
    (hk : kind = .BOMB ∨ kind = .LINE ∨
      ((kind = .COLOR ∨ kind = .SINGLE) ∧ st.grid r c ≠ none)) :
    (r, c) ∈ getPowerUpAffectedCells st.grid r c kind := by
  rcases hk with rfl | rfl | ⟨hk, hne⟩
  · exact (mem_bombCells r c (r, c)).mpr ⟨by simp, by simp⟩
  · exact (mem_lineCells r c (r, c)).mpr (Or.inl rfl)
  · rcases hk with rfl | rfl
    · exact (mem_colorCells st.grid r c (r, c)).mpr ⟨hne, rfl⟩
    · simp [getPowerUpAffectedCells]

theorem executePowerUp_success (st : BoardState) (kind : PowerUpType) (r c : Fin 8)
    (hk : kind = .BOMB ∨ kind = .LINE ∨
      ((kind = .COLOR ∨ kind = .SINGLE) ∧ st.grid r c ≠ none)) :
    executePowerUp st kind r c =
      { st with
        grid := (clearCells st.grid (getPowerUpAffectedCells st.grid r c kind)).1
        score := st.score +
          ((clearCells st.grid (getPowerUpAffectedCells st.grid r c kind)).2 : Int) * 20
        powerUps := st.powerUps.set kind (st.powerUps.get kind - 1)
        rescueMode := false } := by
  have hlen : ¬ (getPowerUpAffectedCells st.grid r c kind).length = 0 := by
    rw [List.length_eq_zero]
    exact List.ne_nil_of_mem (target_mem_affected st kind r c hk)
  rcases hk with rfl | rfl | ⟨hk, hne⟩
  · rw [executePowerUp, if_neg (by simp), if_neg (by simp), if_neg hlen]
  · rw [executePowerUp, if_neg (by simp), if_neg (by simp), if_neg hlen]
  · have hsome : (st.grid r c).isNone = false := by
      rw [Option.isNone_eq_false_iff, Option.isSome_iff_ne_none]
      exact hne
    rcases hk with rfl | rfl
    · rw [executePowerUp, if_neg (by simp), if_neg (by simp [hsome]), if_neg hlen]
    · rw [executePowerUp, if_neg (by simp), if_neg (by simp [hsome]), if_neg hlen]

/-- C4: targeting the same-color or single-cell power-up at an empty cell is
a complete no-op; any other cell-targeted application clears exactly the
affected non-empty cells, awards `clearedCount * 20`, consumes one unit of
the applied kind, leaves the other counts alone, and clears the rescue
flag. -/
theorem power_up_apply_contract (st : BoardState) (kind : PowerUpType) (r c : Fin 8) :
    (((kind = .COLOR ∨ kind = .SINGLE) ∧ st.grid r c = none) →
      executePowerUp st kind r c = st) ∧
    ((kind = .BOMB ∨ kind = .LINE ∨
        ((kind = .COLOR ∨ kind = .SINGLE) ∧ st.grid r c ≠ none)) →
      (∀ i j : Fin 8, (executePowerUp st kind r c).grid i j =
        if (i, j) ∈ getPowerUpAffectedCells st.grid r c kind then none
        else st.grid i j) ∧
      (executePowerUp st kind r c).score = st.score +
        20 * ((Finset.univ.filter fun q : Fin 8 × Fin 8 =>
          q ∈ getPowerUpAffectedCells st.grid r c kind ∧
            (st.grid q.1 q.2).isSome = true).card : Int) ∧
      (executePowerUp st kind r c).powerUps.get kind = st.powerUps.get kind - 1 ∧
      (∀ k2, k2 ≠ kind →
        (executePowerUp st kind r c).powerUps.get k2 = st.powerUps.get k2) ∧
      (executePowerUp st kind r c).rescueMode = false) := by
  constructor
  · rintro ⟨hk, hempty⟩
    rcases hk with rfl | rfl
    · rw [executePowerUp, if_neg (by simp), if_pos (by simp [hempty])]
    · rw [executePowerUp, if_neg (by simp), if_pos (by simp [hempty])]
  · intro hk
    rw [executePowerUp_success st kind r c hk]
    refine ⟨?_, ?_, ?_, ?_, rfl⟩
    · intro i j
      exact clearCells_grid _ st.grid i j
    · rw [clearCells_count _ st.grid]
      ring
    · exact PowerUps.get_set_self st.powerUps kind _
    · intro k2 hk2
      exact PowerUps.get_set_of_ne st.powerUps kind k2 _ hk2

/-- Witness for C4: on the demonstration grid, the single-cell power-up at the
empty cell (0,0) is rejected outright, and at the filled cell (0,1) it clears
that cell, awards 20 points, and consumes one `SINGLE` unit. -/
theorem power_up_apply_contract_witness :
    executePowerUp demoLineState .SINGLE 0 0 = demoLineState ∧
    (executePowerUp demoLineState .SINGLE 0 1).score = demoLineState.score + 20 ∧
    (executePowerUp demoLineState .SINGLE 0 1).powerUps.get .SINGLE =
      demoLineState.powerUps.get .SINGLE - 1 ∧
    (executePowerUp demoLineState .SINGLE 0 1).rescueMode = false := by
  obtain ⟨hrej, _⟩ := power_up_apply_contract demoLineState .SINGLE 0 0
  obtain ⟨_, hsuc⟩ := power_up_apply_contract demoLineState .SINGLE 0 1
  obtain ⟨hgrid, hscore, hget, hother, hrescue⟩ :=
    hsuc (Or.inr (Or.inr ⟨Or.inr rfl, by decide⟩))
  refine ⟨hrej ⟨Or.inr rfl, by decide⟩, ?_, hget, hrescue⟩
  rw [hscore]
  norm_num
  decide

/-- C10: applying the area or cross power-up where every affected cell is
empty still consumes the unit and clears the rescue flag, while the grid and
the score are unchanged. -/
theorem power_up_wasted_consumption (st : BoardState) (kind : PowerUpType) (r c : Fin 8)
    (hkind : kind = .BOMB ∨ kind = .LINE)
    (hempty : ∀ p ∈ getPowerUpAffectedCells st.grid r c kind, st.grid p.1 p.2 = none) :
    (executePowerUp st kind r c).grid = st.grid ∧
    (executePowerUp st kind r c).score = st.score ∧
    (executePowerUp st kind r c).powerUps.get kind = st.powerUps.get kind - 1 ∧
    (executePowerUp st kind r c).rescueMode = false := by
  have hk : kind = .BOMB ∨ kind = .LINE ∨
      ((kind = .COLOR ∨ kind = .SINGLE) ∧ st.grid r c ≠ none) := by
    rcases hkind with rfl | rfl
    · exact Or.inl rfl
    · exact Or.inr (Or.inl rfl)
  rw [executePowerUp_success st kind r c hk]
  refine ⟨?_, ?_, PowerUps.get_set_self st.powerUps kind _, rfl⟩
  · funext i j
    show (clearCells st.grid (getPowerUpAffectedCells st.grid r c kind)).1 i j =
      st.grid i j
    rw [clearCells_grid _ st.grid i j]
    by_cases hin : (i, j) ∈ getPowerUpAffectedCells st.grid r c kind
    · rw [if_pos hin, hempty (i, j) hin]
    · rw [if_neg hin]
  · rw [clearCells_count _ st.grid]
    have : (Finset.univ.filter fun q : Fin 8 × Fin 8 =>
        q ∈ getPowerUpAffectedCells st.grid r c kind ∧
          (st.grid q.1 q.2).isSome = true) = ∅ := by
      ext q
      simp only [Finset.mem_filter, Finset.mem_univ, true_and, Finset.not_mem_empty,
        iff_false, not_and]
      intro hq
      rw [hempty q hq]
      simp
    rw [this]
    simp

/-- Witness for C10: a bomb at (5,5) on the demonstration grid affects only
empty cells; the unit is consumed, the grid and score are untouched. -/
theorem power_up_wasted_consumption_witness :
    (executePowerUp demoLineState .BOMB 5 5).grid = demoLineState.grid ∧
    (executePowerUp demoLineState .BOMB 5 5).score = demoLineState.score ∧
    (executePowerUp demoLineState .BOMB 5 5).powerUps.get .BOMB =
      demoLineState.powerUps.get .BOMB - 1 ∧
    (executePowerUp demoLineState .BOMB 5 5).rescueMode = false :=
  power_up_wasted_consumption demoLineState .BOMB 5 5 (Or.inl rfl) (by decide)

/-! ### C2: the stuck-detection verdict -/

theorem canFit_eq_false_iff (layout : Layout) (grid : Grid) :
    canFitShapeWithRotation layout grid = false ↔
      ∀ k, k < 4 → ∀ rr cc : Fin 8,
        ¬ canPlaceShape (rr : Int) (cc : Int) (rotateLayout^[k] layout) grid = true := by
  unfold canFitShapeWithRotation canPlaceShapeAnywhere
  simp [List.any_eq_false]

theorem canMove_false_iff (st : BoardState) :
    ((st.shapes.any fun s => canFitShapeWithRotation s.layout st.grid) ||
      (match st.holdShape with
       | some h => canFitShapeWithRotation h.layout st.grid
       | none => false)) = false ↔ NoPieceFits st := by
  rw [Bool.or_eq_false_iff]
  unfold NoPieceFits
  constructor
  · rintro ⟨h1, h2⟩
    rw [List.any_eq_false] at h1
    simp only [Bool.not_eq_true] at h1
    constructor
    · intro s hs
      rw [← canFit_eq_false_iff]
      exact h1 s hs
    · intro h hmem
      rw [← canFit_eq_false_iff]
      cases hh : st.holdShape with
      | none => rw [hh] at hmem; simp at hmem
      | some h0 =>
        rw [hh] at hmem h2
        simp only [Option.toList_some, List.mem_singleton] at hmem
        rw [hmem]
        exact h2
  · rintro ⟨h1, h2⟩
    constructor
    · rw [List.any_eq_false]
      simp only [Bool.not_eq_true]
      intro s hs
      rw [canFit_eq_false_iff]
      exact h1 s hs
    · cases hh : st.holdShape with
      | none => rfl
      | some h0 =>
        rw [canFit_eq_false_iff]
        exact h2 h0 (by rw [hh]; simp)

theorem hasRecovery_iff (st : BoardState) :
    HasRecovery st ↔
      ((st.powerUps.bomb > 0 || st.powerUps.line > 0 || st.powerUps.color > 0 ||
        st.powerUps.single > 0 || st.powerUps.refresh > 0) ||
       (st.coins ≥ POWER_UP_COSTS .BOMB || st.coins ≥ POWER_UP_COSTS .LINE ||
        st.coins ≥ POWER_UP_COSTS .COLOR || st.coins ≥ POWER_UP_COSTS .SINGLE ||
        st.coins ≥ POWER_UP_COSTS .REFRESH)) = true := by
  unfold HasRecovery
  simp only [Bool.or_eq_true, decide_eq_true_eq]
  constructor
  · rintro (⟨k, hk⟩ | ⟨k, hk⟩)
    · refine Or.inl ?_
      cases k with
      | BOMB => exact Or.inl (Or.inl (Or.inl (Or.inl hk)))
      | LINE => exact Or.inl (Or.inl (Or.inl (Or.inr hk)))
      | COLOR => exact Or.inl (Or.inl (Or.inr hk))
      | SINGLE => exact Or.inl (Or.inr hk)
      | REFRESH => exact Or.inr hk
    · refine Or.inr ?_
      cases k with
      | BOMB => exact Or.inl (Or.inl (Or.inl (Or.inl hk)))
      | LINE => exact Or.inl (Or.inl (Or.inl (Or.inr hk)))
      | COLOR => exact Or.inl (Or.inl (Or.inr hk))
      | SINGLE => exact Or.inl (Or.inr hk)
      | REFRESH => exact Or.inr hk
  · rintro (h | h)
    · rcases h with (((h | h) | h) | h) | h
      · exact Or.inl ⟨.BOMB, h⟩
      · exact Or.inl ⟨.LINE, h⟩
      · exact Or.inl ⟨.COLOR, h⟩
      · exact Or.inl ⟨.SINGLE, h⟩
      · exact Or.inl ⟨.REFRESH, h⟩
    · rcases h with (((h | h) | h) | h) | h
      · exact Or.inr ⟨.BOMB, h⟩
      · exact Or.inr ⟨.LINE, h⟩
      · exact Or.inr ⟨.COLOR, h⟩
      · exact Or.inr ⟨.SINGLE, h⟩
      · exact Or.inr ⟨.REFRESH, h⟩

/-- C2: when the stuck check fires on a non-empty dock in a non-terminal
state: if no dock piece and no held piece fits at any anchor in any of its
four rotations, the verdict is rescue when a power-up is held or affordable,
and otherwise terminal with the game-over event carrying the final score and
the session snapshot purged; if some piece fits, the rescue flag is
cleared. -/
theorem stuck_detection_verdict (st : BoardState)
    (hgo : st.isGameOver = false) (hne : st.shapes ≠ []) :
    (NoPieceFits st →
      (HasRecovery st →
        (checkGameOverStep st).state.rescueMode = true ∧
        (checkGameOverStep st).state.isGameOver = false ∧
        (checkGameOverStep st).gameOverEvent = none ∧
        (checkGameOverStep st).sessionCleared = false) ∧
      (¬ HasRecovery st →
        (checkGameOverStep st).state.isGameOver = true ∧
        (checkGameOverStep st).gameOverEvent = some st.score ∧
        (checkGameOverStep st).sessionCleared = true)) ∧
    (¬ NoPieceFits st →
      (checkGameOverStep st).state.rescueMode = false ∧
      (checkGameOverStep st).gameOverEvent = none) := by
  unfold checkGameOverStep
  rw [hgo]
  rw [if_neg (by simp), if_neg (by simpa using hne)]
  constructor
  · intro hfit
    have hcm : ((st.shapes.any fun s => canFitShapeWithRotation s.layout st.grid) ||
        (match st.holdShape with
         | some h => canFitShapeWithRotation h.layout st.grid
         | none => false)) = false := (canMove_false_iff st).mpr hfit
    rw [hcm]
    constructor
    · intro hrec
      rw [if_neg (by simp), if_pos ((hasRecovery_iff st).mp hrec)]
      exact ⟨rfl, rfl, rfl, rfl⟩
    · intro hrec
      rw [if_neg (by simp),
        if_neg (fun hb => hrec ((hasRecovery_iff st).mpr hb))]
      exact ⟨rfl, rfl, rfl⟩
  · intro hfit
    have hcm : ¬(((st.shapes.any fun s => canFitShapeWithRotation s.layout st.grid) ||
        (match st.holdShape with
         | some h => canFitShapeWithRotation h.layout st.grid
         | none => false)) = false) := fun hb => hfit ((canMove_false_iff st).mp hb)
    rw [if_pos (by revert hcm; cases ((st.shapes.any fun s =>
        canFitShapeWithRotation s.layout st.grid) ||
        (match st.holdShape with
         | some h => canFitShapeWithRotation h.layout st.grid
         | none => false)) <;> simp)]
    exact ⟨rfl, rfl⟩

/-- Witness for C2: on a completely full grid with a 1x1 dock piece, no
power-up units and no coins, the check enters terminal, emits the final
score 320, and purges the session. -/
theorem stuck_detection_verdict_witness :
    (checkGameOverStep demoStuckState).state.isGameOver = true ∧
    (checkGameOverStep demoStuckState).gameOverEvent = some 320 ∧
    (checkGameOverStep demoStuckState).sessionCleared = true := by
  obtain ⟨hstuck, _⟩ := stuck_detection_verdict demoStuckState (by decide)
    (by decide)
  exact hstuck (by decide) |>.2 (by decide)

/-! ### C3: terminal and rescue are mutually exclusive -/

/-- The flag invariant: whenever the terminal flag is set, the rescue flag is
clear. -/
def FlagInv (st : BoardState) : Prop :=
  st.isGameOver = true → st.rescueMode = false

theorem placePiece_flags (st : BoardState) (r c : Int) (idx : Nat)
    (reward : PowerUpType) :
    (placePiece st r c idx reward).isGameOver = st.isGameOver ∧
    (placePiece st r c idx reward).rescueMode = st.rescueMode := by
  unfold placePiece
  split
  · exact ⟨rfl, rfl⟩
  · split
    · exact ⟨rfl, rfl⟩
    · split
      · dsimp only
        split
        · exact ⟨rfl, rfl⟩
        · exact ⟨rfl, rfl⟩
      · exact ⟨rfl, rfl⟩

theorem holdStep_flags (st : BoardState) (idx : Nat) :
    (holdStep st idx).isGameOver = st.isGameOver ∧
    (holdStep st idx).rescueMode = st.rescueMode := by
  unfold holdStep
  split
  · exact ⟨rfl, rfl⟩
  · split
    · exact ⟨rfl, rfl⟩
    · exact ⟨rfl, rfl⟩

theorem rotateStep_flags (st : BoardState) (idx : Nat) :
    (rotateStep st idx).isGameOver = st.isGameOver ∧
    (rotateStep st idx).rescueMode = st.rescueMode := by
  unfold rotateStep
  split
  · exact ⟨rfl, rfl⟩
  · exact ⟨rfl, rfl⟩

theorem executePowerUp_flags (st : BoardState) (kind : PowerUpType) (r c : Fin 8) :
    (executePowerUp st kind r c).isGameOver = st.isGameOver ∧
    ((executePowerUp st kind r c).rescueMode = st.rescueMode ∨
      (executePowerUp st kind r c).rescueMode = false) := by
  unfold executePowerUp
  split
  · exact ⟨rfl, Or.inl rfl⟩
  · split
    · exact ⟨rfl, Or.inl rfl⟩
    · dsimp only
      split
      · exact ⟨rfl, Or.inl rfl⟩
      · exact ⟨rfl, Or.inr rfl⟩

theorem checkGameOverStep_flagInv (st : BoardState) (hrm : st.rescueMode = false) :
    FlagInv (checkGameOverStep st).state := by
  unfold checkGameOverStep FlagInv
  split
  · intro _; exact hrm
  next hgo2 =>
    split
    · intro _; exact hrm
    · dsimp only
      split
      · intro _; rfl
      · split
        · intro hcontra
          exact absurd hcontra hgo2
        · intro _; exact hrm

theorem applyOp_flagInv (st : BoardState) (op : Op) (h : FlagInv st) :
    FlagInv (applyOp st op) := by
  cases op with
  | place r c idx reward =>
    show FlagInv (placePiece st r c idx reward)
    intro hgo
    obtain ⟨h1, h2⟩ := placePiece_flags st r c idx reward
    rw [h2]
    exact h (h1 ▸ hgo)
  | holdPiece idx =>
    show FlagInv (holdStep st idx)
    intro hgo
    obtain ⟨h1, h2⟩ := holdStep_flags st idx
    rw [h2]
    exact h (h1 ▸ hgo)
  | rotatePiece idx =>
    show FlagInv (rotateStep st idx)
    intro hgo
    obtain ⟨h1, h2⟩ := rotateStep_flags st idx
    rw [h2]
    exact h (h1 ▸ hgo)
  | applyPowerUp kind r c =>
    show FlagInv (applyPowerUpStep st kind r c)
    unfold applyPowerUpStep
    split
    · exact h
    · split
      · intro hgo
        obtain ⟨h1, h2⟩ := executePowerUp_flags st kind r c
        rcases h2 with h2 | h2
        · rw [h2]; exact h (h1 ▸ hgo)
        · exact h2
      · exact h
  | purchasePowerUp kind newShapes =>
    show FlagInv (purchaseStep st kind newShapes)
    unfold purchaseStep
    split
    · split
      · split
        · intro _; rfl
        · exact h
      · exact h
    · exact h
  | useRefresh newShapes =>
    show FlagInv (useRefreshStep st newShapes)
    unfold useRefreshStep
    split
    · intro _; rfl
    · exact h
  | regenerateDock newShapes => exact h
  | stuckCheck =>
    show FlagInv (stuckCheckStep st)
    unfold stuckCheckStep
    split
    case isTrue hguard =>
      have hrm : st.rescueMode = false := by
        simp only [Bool.and_eq_true, Bool.not_eq_true'] at hguard
        exact hguard.2
      exact checkGameOverStep_flagInv st hrm
    case isFalse => exact h
  | reset newShapes =>
    intro _; rfl

/-- C3: in every state reachable from a non-terminal state by any sequence of
board operations, the terminal flag and the rescue flag are never both
set. -/
theorem terminal_rescue_exclusive (init : BoardState) (ops : List Op)
    (hinit : init.isGameOver = false) :
    ¬((ops.foldl applyOp init).isGameOver = true ∧
      (ops.foldl applyOp init).rescueMode = true) := by
  have h0 : FlagInv init := fun hgo => by rw [hinit] at hgo; exact absurd hgo (by simp)
  have hInv : FlagInv (ops.foldl applyOp init) := by
    clear hinit
    induction ops generalizing init with
    | nil => exact h0
    | cons op rest ih =>
      exact ih (applyOp init op) (applyOp_flagInv init op h0)
  rintro ⟨hgo, hrm⟩
  rw [hInv hgo] at hrm
  exact absurd hrm (by simp)

/-- Witness for C3: starting from the demonstration state and running a stuck
check, a power-up, a placement and a reset, the two flags are not both set. -/
theorem terminal_rescue_exclusive_witness :
    ¬((([Op.stuckCheck, Op.applyPowerUp .SINGLE 0 1, Op.place 0 0 0 .BOMB,
        Op.reset []].foldl applyOp demoLineState).isGameOver = true) ∧
      (([Op.stuckCheck, Op.applyPowerUp .SINGLE 0 1, Op.place 0 0 0 .BOMB,
        Op.reset []].foldl applyOp demoLineState).rescueMode = true)) :=
  terminal_rescue_exclusive demoLineState
    [Op.stuckCheck, Op.applyPowerUp .SINGLE 0 1, Op.place 0 0 0 .BOMB, Op.reset []]
    (by decide)

/-! ### C9: the bulk metadata read -/

/-- C9: `loadInventory` returns one record per stored card, and every record
whose image payload is longer than 100 characters (the source's heavy-payload
criterion) comes back with the payload replaced by the `"stored"` marker. -/
theorem loadInventory_spec (stored : List MonsterCard) :
    (loadInventory stored).length = stored.length ∧
    (∀ (i : Nat) (card : MonsterCard) (url : String),
      stored[i]? = some card → card.imageUrl = some url → url.length > 100 →
      ∃ card2 : MonsterCard, (loadInventory stored)[i]? = some card2 ∧
        card2.imageUrl = some "stored") := by
  constructor
  · simp [loadInventory]
  · intro i card url hget himg hlen
    have hmap : (loadInventory stored)[i]? = some (
        match card.imageUrl with
        | some url2 =>
          if url2.length > 100 then { card with imageUrl := some "stored" } else card
        | none => card) := by
      rw [loadInventory, List.getElem?_map, hget]
      rfl
    refine ⟨_, hmap, ?_⟩
    show (match card.imageUrl with
      | some url2 =>
        if url2.length > 100 then { card with imageUrl := some "stored" } else card
      | none => card).imageUrl = some "stored"
    rw [himg]
    show (if url.length > 100 then { card with imageUrl := some "stored" }
      else card).imageUrl = some "stored"
    rw [if_pos hlen]

/-- Witness for C9: a one-card store whose card has a 101-character payload
comes back as one record carrying the `"stored"` marker. -/
theorem loadInventory_spec_witness :
    (loadInventory [demoCard]).length = 1 ∧
    ∃ card2 : MonsterCard, (loadInventory [demoCard])[0]? = some card2 ∧
      card2.imageUrl = some "stored" := by
  obtain ⟨hlen, hmark⟩ := loadInventory_spec [demoCard]
  exact ⟨hlen, hmark 0 demoCard demoLongUrl rfl rfl (by decide)⟩

end BlockGame
